import Mathlib

/-!
# Verification of the Polymarket arbitrage agent core

A shallow embedding, over exact rationals, of the scan–qualify–size–gate–execute
pipeline of the repository:

* `RiskManager.calculate_position_size` and `RiskManager.check_risk_limits`
  (`agents/arbitrage_agent/risk_manager.py`),
* `MarketScanner.check_market_criteria` and `MarketScanner.get_market_details`
  (`agents/arbitrage_agent/market_scanner.py`),
* `TradeExecutor.execute_trade` (`agents/arbitrage_agent/trade_executor.py`),
* the validating `MarketCandidate` model (`agents/arbitrage_agent/market_scanner.py`).

Conventions of the embedding:

* Python floats are modelled as exact rationals (`ℚ`); `round(x, 2)` is modelled
  as round-half-to-even at two decimal places (Python's documented rounding mode).
* Dictionary fields that may be absent are `Option`-valued; `d.get(k, default)`
  becomes `Option.getD`.
* Python truthiness of a numeric value (`if liquidity: ...`) is `≠ 0` on the
  modelled rational, with `None` collapsing to `0`.
* Datetime parsing is abstracted: an end-date field is `Option (Option ℚ)` —
  `none` for an absent/empty field, `some none` for a present but unparseable
  string, and `some (some t)` for a string that parses to the absolute time `t`
  measured in hours; the current time `now` is a parameter in the same unit, so
  the code's `(end_date - now).total_seconds() / 3600` becomes `t - now`.
* Calls to external collaborators (balance fetch, order-book price fetch, order
  submission) are parameters of type `Except String α`: `.error e` models the
  call raising an exception whose `str` is `e`.
* Interpolated numeric values inside the reason/error f-strings are elided; the
  fixed text of each message is kept.
* The configuration object consumed by the risk manager (attributes
  `MAX_POSITION_SIZE`, `MIN_PROBABILITY`, `MAX_PROBABILITY`, `MIN_LIQUIDITY`) is
  an external collaborator; it is modelled as an explicit record parameter.
-/

namespace ArbAgent

/-! ## Python `round(x, 2)`: round half to even at two decimals -/

/-- Round a rational to the nearest integer, ties to the even integer
(Python's `round` on a one-argument call / the mode used by `round(x, n)`). -/
def roundHalfEven (q : ℚ) : ℤ :=
  let f : ℤ := ⌊q⌋
  if q - f < 1/2 then f
  else if 1/2 < q - f then f + 1
  else if f % 2 = 0 then f else f + 1

/-- Python's `round(x, 2)`. -/
def round2 (q : ℚ) : ℚ := (roundHalfEven (100 * q) : ℚ) / 100

/-! ## Risk-manager configuration

`risk_manager.py` reads `self.config.MAX_POSITION_SIZE`, `MIN_PROBABILITY`,
`MAX_PROBABILITY` and `MIN_LIQUIDITY`.  The configuration provider itself is an
external collaborator (spec §6); we model the four consumed settings as a
record, and the constraints the configuration layer guarantees as `Valid`. -/

structure RMConfig where
  MAX_POSITION_SIZE : ℚ
  MIN_PROBABILITY : ℚ
  MAX_PROBABILITY : ℚ
  MIN_LIQUIDITY : ℚ
deriving Repr, DecidableEq

/-- Constraints on a usable configuration, mirroring the validation performed by
the configuration layer (`config.py`): probabilities in `[0,1]` with
`min < max`, a positive liquidity floor, max position size at least 1. -/
def RMConfig.Valid (c : RMConfig) : Prop :=
  0 ≤ c.MIN_PROBABILITY ∧ c.MIN_PROBABILITY < c.MAX_PROBABILITY ∧
    c.MAX_PROBABILITY ≤ 1 ∧ 0 < c.MIN_LIQUIDITY ∧ 1 ≤ c.MAX_POSITION_SIZE

instance (c : RMConfig) : Decidable c.Valid := by
  unfold RMConfig.Valid; infer_instance

/-- The repository's default configuration values
(`config.py`: 1000.0, 0.92, 0.99, 5000.0). -/
def defaultConfig : RMConfig :=
  { MAX_POSITION_SIZE := 1000
    MIN_PROBABILITY := 92/100
    MAX_PROBABILITY := 99/100
    MIN_LIQUIDITY := 5000 }

/-! ## Market dictionaries

The market dictionary consumed by the risk manager and the trade executor uses
keys `"liquidity"`, `"spread"` and `"clob_token_ids"`.  For `clob_token_ids`,
`none` models an absent key (a `KeyError` on `market["clob_token_ids"]`),
`some none` a present value on which `ast.literal_eval` raises, and
`some (some ids)` a value that parses to the list `ids`. -/

structure Market where
  liquidity : Option ℚ := none
  spread : Option ℚ := none
  clob_token_ids : Option (Option (List String)) := none

/-! ## `RiskManager.calculate_position_size` (risk_manager.py lines 16–53) -/

/-- Embedding of `RiskManager.calculate_position_size`.  The statement order of
the source is kept: the probability multiplier is computed first, the hard
liquidity floor returns 0, the liquidity multiplier and the raw product follow,
the product is capped at `MAX_POSITION_SIZE`, a sub-10 result returns 0, and
rounding to two decimals happens only at the final return. -/
def calculate_position_size (cfg : RMConfig) (market : Market) (probability : ℚ) : ℚ :=
  let base_size := cfg.MAX_POSITION_SIZE
  let probability_multiplier :=
    (probability - cfg.MIN_PROBABILITY) / (cfg.MAX_PROBABILITY - cfg.MIN_PROBABILITY)
  let liquidity := market.liquidity.getD 0
  if liquidity < cfg.MIN_LIQUIDITY then 0
  else
    let liquidity_multiplier := min 1 (liquidity / (cfg.MIN_LIQUIDITY * 2))
    let position_size := base_size * probability_multiplier * liquidity_multiplier
    let position_size := min position_size cfg.MAX_POSITION_SIZE
    if position_size < 10 then 0
    else round2 position_size

/-- Modelled from the spec: the position-sizing procedure exactly as §4.2 of the
design prescribes it — raw size = base × probability_multiplier ×
liquidity_multiplier **rounded to two decimals**; if that rounded raw size is
below 10 the result is 0; otherwise the result is `min(rounded raw size, base)`,
in that order.  Used only to compare the spec's procedure with the code's. -/
def spec_position_size (cfg : RMConfig) (market : Market) (probability : ℚ) : ℚ :=
  let base_size := cfg.MAX_POSITION_SIZE
  let probability_multiplier :=
    (probability - cfg.MIN_PROBABILITY) / (cfg.MAX_PROBABILITY - cfg.MIN_PROBABILITY)
  let liquidity := market.liquidity.getD 0
  if liquidity < cfg.MIN_LIQUIDITY then 0
  else
    let liquidity_multiplier := min 1 (liquidity / (cfg.MIN_LIQUIDITY * 2))
    let raw := round2 (base_size * probability_multiplier * liquidity_multiplier)
    if raw < 10 then 0
    else min raw base_size

/-! ## `RiskManager.check_risk_limits` (risk_manager.py lines 55–98)

The balance fetch `self.polymarket.get_usdc_balance()` is an external call; it
is passed in as `balanceResult : Except String ℚ`, where `.error e` models the
call raising an exception.  The four checks of the source are transcribed in
order, each appending its reason and clearing the `approved` flag exactly as
the source mutates the `checks` dictionary. -/

structure RiskDecision where
  approved : Bool
  reasons : List String
deriving Repr, DecidableEq

/-- Embedding of `RiskManager.check_risk_limits`. -/
def check_risk_limits (cfg : RMConfig) (balanceResult : Except String ℚ)
    (market : Market) (position_size : ℚ) : RiskDecision :=
  let approved := true
  let reasons : List String := []
  -- Check liquidity
  let liquidity := market.liquidity.getD 0
  let (approved, reasons) :=
    if liquidity < cfg.MIN_LIQUIDITY then
      (false, reasons ++ ["Insufficient liquidity"])
    else (approved, reasons)
  -- Check position size
  let (approved, reasons) :=
    if position_size > cfg.MAX_POSITION_SIZE then
      (false, reasons ++ ["Position size too large"])
    else (approved, reasons)
  -- Check wallet balance (fetch failure is itself a rejection reason)
  let (approved, reasons) :=
    match balanceResult with
    | .ok balance =>
      if balance < position_size * (11/10) then
        (false, reasons ++ ["Insufficient balance"])
      else (approved, reasons)
    | .error _ => (false, reasons ++ ["Error checking balance"])
  -- Check spread
  let spread := market.spread.getD 1
  let (approved, reasons) :=
    if spread > 1/20 then
      (false, reasons ++ ["Spread too wide"])
    else (approved, reasons)
  { approved := approved, reasons := reasons }

/-! ## Scanner-side market records (market_scanner.py)

The raw dictionary returned by the Gamma API and consumed by
`check_market_criteria`.  `outcomePrices` is the decoded price list (an absent
key defaults to the empty list as in `market.get("outcomePrices", [])`); see
the file header for the `endDate` and truthiness conventions.  The source also
consults `endDateIso` as a fallback key; the two date keys are collapsed into
the one modelled `endDate` field (the collapsed value of
`market.get("endDate") or market.get("endDateIso")`). -/

structure GammaMarket where
  active : Bool := false
  closed : Bool := false
  archived : Bool := false
  funded : Bool := false
  outcomePrices : List ℚ := []
  endDate : Option (Option ℚ) := none
  liquidityClob : Option ℚ := none
  liquidity : Option ℚ := none

/-- Python's `a or b` on two optional floats, with a trailing
`if … is None: … = 0.0`: the first operand is kept when truthy (present and
nonzero), otherwise the second operand's value, otherwise `0.0`. -/
def pyOrFloat (a b : Option ℚ) : ℚ :=
  if a.getD 0 ≠ 0 then a.getD 0 else b.getD 0

/-- Python's `max` over a nonempty list (the guard `len ≥ 2` in the source
ensures nonemptiness; `0` is returned on the unreachable empty list). -/
def pyMax : List ℚ → ℚ
  | [] => 0
  | x :: xs => xs.foldl max x

/-! ## `MarketScanner.check_market_criteria` (market_scanner.py lines 256–351)

`min_liquidity` is the scanner's `self.min_liquidity`; `now` is the current
time in hours (`datetime.now(timezone.utc)` in the same unit as the parsed end
dates).  The checks short-circuit in source order.  Interpolated values in the
reason strings are elided. -/

/-- Embedding of `MarketScanner.check_market_criteria`. -/
def check_market_criteria (min_liquidity : ℚ) (now : ℚ) (market : GammaMarket)
    (min_prob : ℚ) (max_prob : ℚ) (time_window_hours : ℚ) : Bool × String :=
  if !market.active then (false, "Market is not active")
  else if market.closed then (false, "Market is closed")
  else if market.archived then (false, "Market is archived")
  else if !market.funded then (false, "Market is not funded")
  else
    let outcome_prices := market.outcomePrices
    if outcome_prices.isEmpty || outcome_prices.length < 2 then
      (false, "Invalid outcome prices")
    else
      let prices := outcome_prices
      let max_price := pyMax prices
      if !(decide (min_prob ≤ max_price) && decide (max_price ≤ max_prob)) then
        (false, "Probability outside range")
      else
        match market.endDate with
        | none => (false, "No end date available")
        | some none => (false, "Invalid end date format")
        | some (some end_date) =>
          let time_diff := end_date - now
          if time_diff < 0 then (false, "Market has already ended")
          else if time_diff > time_window_hours then (false, "Resolution too far")
          else
            let liquidity := pyOrFloat market.liquidityClob market.liquidity
            if liquidity ≠ 0 ∧ liquidity < min_liquidity then
              (false, "Insufficient liquidity")
            else
              (true, "All criteria met")

/-! ## `MarketScanner.get_market_details` (market_scanner.py lines 353–472)

The Gamma `get_market(market_id)` response is passed in as
`marketData : Option GammaDetail` (`none`: market not found).  The order-book
fetch + liquidity recomputation of the fallback path
(`self.polymarket.get_orderbook` followed by `_calculate_orderbook_liquidity`)
is passed as `orderbook : Except String OrderBook`; `.error e` models the fetch
raising, which the source catches, leaving the liquidity value unchanged. -/

/-- One side of an order book: a list of (price, size) levels. -/
structure OrderBook where
  bids : List (ℚ × ℚ) := []
  asks : List (ℚ × ℚ) := []

/-- Embedding of `MarketScanner._calculate_orderbook_liquidity`
(market_scanner.py lines 474–505): the notional sum of price × size over all
bids and asks. -/
def calculate_orderbook_liquidity (ob : OrderBook) : ℚ :=
  let bidSum := ob.bids.foldl (fun acc l => acc + l.1 * l.2) 0
  bidSum + ob.asks.foldl (fun acc l => acc + l.1 * l.2) 0

/-- The fields of the Gamma detail record that `get_market_details` consumes.
`outcomes` comes from the `"outcome"` key, `outcomePrices` from
`"outcomePrices"` (both after JSON decoding of a string-encoded value);
`clobTokenIds` is the decoded token-id list, `none` when the key is
absent/falsy. -/
structure GammaDetail where
  question : String := ""
  outcomes : List String := []
  outcomePrices : List ℚ := []
  active : Bool := false
  closed : Bool := false
  funded : Bool := false
  endDate : Option (Option ℚ) := none
  liquidityClob : Option ℚ := none
  liquidity : Option ℚ := none
  clobTokenIds : Option (List String) := none
  spread : Option ℚ := none

/-- First index of the maximum of a list (Python's `prices.index(max(prices))`;
ties resolve to the first occurrence).  Returns `0` on the empty list. -/
def idxOfMax (l : List ℚ) : ℕ :=
  match l with
  | [] => 0
  | x :: xs =>
    let m := pyMax (x :: xs)
    ((x :: xs).findIdx (fun p => p = m))

/-- The dictionary built and returned by `get_market_details` (the fields the
claims consult; purely informational text fields are carried through as-is). -/
structure CandidateRecord where
  question : String
  outcomes : List String
  outcome_prices : List ℚ
  winning_outcome_index : ℕ
  winning_probability : ℚ
  active : Bool
  closed : Bool
  funded : Bool
  hours_until_resolution : ℚ
  time_window_qualifies : Bool
  liquidity : ℚ
  spread : ℚ
  meets_liquidity_requirement : Bool
  meets_probability_requirement : Bool
  meets_time_requirement : Bool
  is_qualified : Bool

/-- Embedding of `MarketScanner.get_market_details`.  `min_liquidity` is the
scanner's `self.min_liquidity`; `now` the current time in hours.  Returns
`none` where the source returns `None` (market not found, empty outcome or
price vector). -/
def get_market_details (min_liquidity : ℚ) (now : ℚ)
    (marketData : Option GammaDetail) (orderbook : Except String OrderBook) :
    Option CandidateRecord :=
  match marketData with
  | none => none
  | some d =>
    if d.outcomePrices.isEmpty || d.outcomes.isEmpty then none
    else
      let prices := d.outcomePrices
      let max_price := pyMax prices
      let winning_index := idxOfMax prices
      let winning_prob := max_price
      -- hours until resolution: None when the end date is absent or unparseable
      let hours_until : Option ℚ :=
        match d.endDate with
        | none => none
        | some none => none
        | some (some end_date) => some (end_date - now)
      -- liquidity: liquidityClob or liquidity or 0.0
      let liquidity := pyOrFloat d.liquidityClob d.liquidity
      -- fallback to order-book notional when low and token ids are available
      let liquidity :=
        if liquidity < min_liquidity then
          match d.clobTokenIds with
          | some clob_token_ids =>
            if clob_token_ids ≠ [] ∧ winning_index < clob_token_ids.length then
              match orderbook with
              | .ok ob => calculate_orderbook_liquidity ob
              | .error _ => liquidity
            else liquidity
          | none => liquidity
        else liquidity
      some
        { question := d.question
          outcomes := d.outcomes
          outcome_prices := prices
          winning_outcome_index := winning_index
          winning_probability := winning_prob
          active := d.active
          closed := d.closed
          funded := d.funded
          hours_until_resolution := hours_until.getD 0
          time_window_qualifies :=
            hours_until.isSome &&
              decide (0 < hours_until.getD 0) && decide (hours_until.getD 0 ≤ 48)
          liquidity := liquidity
          spread := d.spread.getD 0
          meets_liquidity_requirement := decide (liquidity ≥ min_liquidity)
          meets_probability_requirement :=
            decide ((92/100 : ℚ) ≤ winning_prob) && decide (winning_prob ≤ 99/100)
          meets_time_requirement :=
            hours_until.isSome &&
              decide (0 < hours_until.getD 0) && decide (hours_until.getD 0 ≤ 48)
          is_qualified :=
            decide (liquidity ≥ min_liquidity) &&
              decide ((92/100 : ℚ) ≤ winning_prob) && decide (winning_prob ≤ 99/100) &&
              hours_until.isSome &&
              decide (0 < hours_until.getD 0) && decide (hours_until.getD 0 ≤ 48) }

/-! ## The `MarketCandidate` pydantic model (market_scanner.py lines 49–112)

The model's two `@validator`s check `0 ≤ winning_probability ≤ 1` and
`liquidity ≥ 0`; construction raises a validation error exactly when a
validator rejects.  The model declares **no** validator relating the lengths of
`outcomes` and `outcome_prices`.  We embed the validated construction as a
function into `Except`. -/

structure MarketCandidate where
  market_id : ℤ
  question : String
  outcomes : List String
  outcome_prices : List ℚ
  winning_outcome_index : ℤ
  winning_probability : ℚ
  active : Bool
  closed : Bool
  funded : Bool
  end_date : String
  hours_until_resolution : ℚ
  time_window_qualifies : Bool
  liquidity : ℚ
  spread : ℚ
  meets_liquidity_requirement : Bool
  meets_probability_requirement : Bool
  meets_time_requirement : Bool
  is_qualified : Bool

/-- Validated construction of a `MarketCandidate`: the pydantic validators
`validate_probability` and `validate_liquidity` in source order. -/
def mkMarketCandidate (market_id : ℤ) (question : String) (outcomes : List String)
    (outcome_prices : List ℚ) (winning_outcome_index : ℤ) (winning_probability : ℚ)
    (active closed funded : Bool) (end_date : String) (hours_until_resolution : ℚ)
    (time_window_qualifies : Bool) (liquidity spread : ℚ)
    (meets_liquidity_requirement meets_probability_requirement
      meets_time_requirement is_qualified : Bool) :
    Except String MarketCandidate :=
  if ¬(0 ≤ winning_probability ∧ winning_probability ≤ 1) then
    .error "Probability must be between 0 and 1"
  else if liquidity < 0 then .error "Liquidity must be non-negative"
  else
    .ok
      { market_id := market_id
        question := question
        outcomes := outcomes
        outcome_prices := outcome_prices
        winning_outcome_index := winning_outcome_index
        winning_probability := winning_probability
        active := active
        closed := closed
        funded := funded
        end_date := end_date
        hours_until_resolution := hours_until_resolution
        time_window_qualifies := time_window_qualifies
        liquidity := liquidity
        spread := spread
        meets_liquidity_requirement := meets_liquidity_requirement
        meets_probability_requirement := meets_probability_requirement
        meets_time_requirement := meets_time_requirement
        is_qualified := is_qualified }

/-! ## `TradeExecutor.execute_trade` (trade_executor.py lines 19–76)

External calls of the executor are passed in as an environment:
`balance` feeds the risk gate's `get_usdc_balance()`, `orderbookPrice` the
`get_orderbook_price(token_id)` call, `executeOrder` the
`execute_market_order(...)` call; `.error e` models the call raising an
exception whose `str` is `e`.

The body of the source's `try:` block is embedded as
`execute_trade_body : … → Except String TradeResult` — `.ok` covers every
`return result` inside the block (including the early returns that populate
`result["error"]`), `.error e` covers an exception raised by a step (the
`KeyError` on a missing `"clob_token_ids"` key, an `ast.literal_eval` failure,
or a raising collaborator call).  `execute_trade` is the body wrapped in the
source's `except Exception as e:` clause. -/

structure TradeResult where
  success : Bool
  order_id : Option String
  error : Option String
  position_size : ℚ
deriving Repr, DecidableEq

/-- The `result` dictionary as initialised at the top of `execute_trade`. -/
def initResult : TradeResult :=
  { success := false, order_id := none, error := none, position_size := 0 }

structure ExecEnv where
  balance : Except String ℚ
  orderbookPrice : Except String ℚ
  executeOrder : Except String String

/-- Python's `"; ".join(reasons)`. -/
def joinReasons : List String → String
  | [] => ""
  | [r] => r
  | r :: rs => r ++ "; " ++ joinReasons rs

/-- The `try:` block of `TradeExecutor.execute_trade`, step by step:
sizing, risk gate, token resolution, price fetch, order submission. -/
def execute_trade_body (cfg : RMConfig) (env : ExecEnv) (market : Market)
    (outcome_index : ℕ) (probability : ℚ) : Except String TradeResult :=
  -- Calculate position size
  let position_size := calculate_position_size cfg market probability
  if position_size = 0 then
    .ok { initResult with error := some "Position size is zero" }
  else
    -- Check risk limits
    let risk_check := check_risk_limits cfg env.balance market position_size
    if risk_check.approved = false then
      .ok { initResult with error := some (joinReasons risk_check.reasons) }
    else
      -- Get token ID for the outcome: market["clob_token_ids"] then literal_eval
      match market.clob_token_ids with
      | none => .error "KeyError: clob_token_ids"
      | some none => .error "malformed node or string"
      | some (some token_ids) =>
        if token_ids.isEmpty || token_ids.length ≤ outcome_index then
          .ok { initResult with error := some "Invalid token ID" }
        else
          -- Get current price (informational)
          match env.orderbookPrice with
          | .error e => .error e
          | .ok _price =>
            -- Execute market order
            match env.executeOrder with
            | .error e => .error e
            | .ok order_result =>
              .ok { success := true, order_id := some order_result,
                    error := none, position_size := position_size }

/-- Embedding of `TradeExecutor.execute_trade`: the body plus the catch-all
`except` clause, which stores `str(e)` into the still-initial result. -/
def execute_trade (cfg : RMConfig) (env : ExecEnv) (market : Market)
    (outcome_index : ℕ) (probability : ℚ) : TradeResult :=
  match execute_trade_body cfg env market outcome_index probability with
  | .ok result => result
  | .error e => { initResult with error := some e }

/-- Whether control in `execute_trade` reaches the
`self.polymarket.execute_market_order(...)` call (trade_executor.py line 63):
every guard before it passes and the price fetch did not raise. -/
def calls_execute_market_order (cfg : RMConfig) (env : ExecEnv) (market : Market)
    (outcome_index : ℕ) (probability : ℚ) : Bool :=
  let position_size := calculate_position_size cfg market probability
  if position_size = 0 then false
  else if (check_risk_limits cfg env.balance market position_size).approved = false then
    false
  else
    match market.clob_token_ids with
    | some (some token_ids) =>
      if token_ids.isEmpty || token_ids.length ≤ outcome_index then false
      else
        match env.orderbookPrice with
        | .ok _ => true
        | .error _ => false
    | _ => false

/-- A configuration identical to the default except that the maximum position
size is 10.006, a value the configuration layer accepts (it only requires
`max_position_size_usd ≥ 1`) but which is not a whole number of cents. -/
def offGridConfig : RMConfig := { defaultConfig with MAX_POSITION_SIZE := 5003/500 }

/-- A raw scanner market that passes every criterion at thresholds
(min_liquidity 5000, now 0, band [0.92, 0.99], window 48): active, open,
funded, prices [0.95, 0.05], resolves 24 hours from now, liquidity 10000. -/
def goodScanMarket : GammaMarket :=
  { active := true, closed := false, archived := false, funded := true,
    outcomePrices := [95/100, 5/100], endDate := some (some 24),
    liquidityClob := some 10000, liquidity := none }

/-! ## Helper lemmas on rounding -/

theorem roundHalfEven_eq_floor_or (x : ℚ) :
    roundHalfEven x = ⌊x⌋ ∨ roundHalfEven x = ⌊x⌋ + 1 := by
  unfold roundHalfEven
  dsimp only
  split_ifs <;> simp

theorem floor_le_roundHalfEven (x : ℚ) : ⌊x⌋ ≤ roundHalfEven x := by
  rcases roundHalfEven_eq_floor_or x with h | h <;> omega

theorem int_le_roundHalfEven {k : ℤ} {x : ℚ} (h : (k : ℚ) ≤ x) :
    k ≤ roundHalfEven x := by
  have h2 : k ≤ ⌊x⌋ := Int.le_floor.mpr h
  have := floor_le_roundHalfEven x
  omega

theorem roundHalfEven_le_int {x : ℚ} {k : ℤ} (h : x ≤ (k : ℚ)) :
    roundHalfEven x ≤ k := by
  have hf : ⌊x⌋ ≤ k := by
    have := Int.floor_le_floor h
    simpa using this
  unfold roundHalfEven
  dsimp only
  split_ifs with h1 h2 h3
  · exact hf
  · have : (⌊x⌋ : ℚ) + 1/2 < x := by linarith
    have hlt : (⌊x⌋ : ℚ) < (k : ℚ) := by linarith
    have : ⌊x⌋ < k := by exact_mod_cast hlt
    omega
  · exact hf
  · have hx : x - ⌊x⌋ = 1/2 := by linarith
    have hlt : (⌊x⌋ : ℚ) < (k : ℚ) := by linarith
    have : ⌊x⌋ < k := by exact_mod_cast hlt
    omega

theorem roundHalfEven_le_add_half (x : ℚ) : (roundHalfEven x : ℚ) ≤ x + 1/2 := by
  have hfl := Int.floor_le x
  unfold roundHalfEven
  dsimp only
  split_ifs with h1 h2 h3 <;> push_cast <;> linarith

/-- `round2` does not push a value past a cent-grid bound above it. -/
theorem round2_le_cent {x : ℚ} {k : ℤ} (h : x ≤ (k : ℚ) / 100) :
    round2 x ≤ (k : ℚ) / 100 := by
  unfold round2
  have h100 : 100 * x ≤ (k : ℚ) := by linarith
  have := roundHalfEven_le_int h100
  have : (roundHalfEven (100 * x) : ℚ) ≤ (k : ℚ) := by exact_mod_cast this
  linarith

/-- `round2` does not pull a value below a cent-grid bound beneath it. -/
theorem cent_le_round2 {k : ℤ} {x : ℚ} (h : (k : ℚ) / 100 ≤ x) :
    (k : ℚ) / 100 ≤ round2 x := by
  unfold round2
  have h100 : (k : ℚ) ≤ 100 * x := by linarith
  have := int_le_roundHalfEven h100
  have : (k : ℚ) ≤ (roundHalfEven (100 * x) : ℚ) := by exact_mod_cast this
  linarith

/-- `round2` overshoots its argument by at most half a cent. -/
theorem round2_le_add (x : ℚ) : round2 x ≤ x + 1/200 := by
  unfold round2
  have := roundHalfEven_le_add_half (100 * x)
  linarith

/-! ## Shared facts about `calculate_position_size` -/

/-- The hard liquidity floor: the sizing function returns 0 as soon as the
market's `liquidity` entry (default 0) is below `MIN_LIQUIDITY`. -/
theorem calculate_position_size_eq_zero_of_liquidity_lt (cfg : RMConfig)
    (market : Market) (probability : ℚ)
    (h : market.liquidity.getD 0 < cfg.MIN_LIQUIDITY) :
    calculate_position_size cfg market probability = 0 := by
  unfold calculate_position_size
  dsimp only
  rw [if_pos h]

/-! ## Claim C1 — position-sizing procedure -/

/-- Claim C1 (counterexample): the claim says that for a market with liquidity
at or above the configured minimum and a probability inside the configured
band, `calculate_position_size` returns exactly the spec's procedure (round to
2 decimals first, zero out a rounded value below 10, then cap at base).  At
liquidity 10000 ≥ 5000 and probability 0.92069972 inside [0.92, 0.99], the raw
size is 9.996: the code zeroes it (it tests 10 against the *unrounded* value),
while the spec's procedure rounds it to 10.00 first and returns 10. -/
theorem position_size_spec_procedure_cex :
    defaultConfig.MIN_LIQUIDITY ≤ (({ liquidity := some 10000 } : Market).liquidity.getD 0) ∧
    defaultConfig.MIN_PROBABILITY ≤ (23017493/25000000 : ℚ) ∧
    (23017493/25000000 : ℚ) ≤ defaultConfig.MAX_PROBABILITY ∧
    calculate_position_size defaultConfig { liquidity := some 10000 } (23017493/25000000) = 0 ∧
    spec_position_size defaultConfig { liquidity := some 10000 } (23017493/25000000) = 10 := by
  norm_num [calculate_position_size, spec_position_size, round2, roundHalfEven,
    defaultConfig, min_def]

/-- Claim C1 (amended): for every market with liquidity ≥ the configured
minimum and every probability in the configured band, the cap at base never
binds, and `calculate_position_size` tests the minimum-viable threshold of 10
against the **unrounded** raw size `base × probability_multiplier ×
liquidity_multiplier`, returning 0 below it and the raw size rounded to two
decimal places otherwise (rounding happens last, not first as the spec's
procedure prescribes). -/
theorem position_size_code_procedure (cfg : RMConfig) (market : Market) (p : ℚ)
    (hv : cfg.Valid)
    (hliq : cfg.MIN_LIQUIDITY ≤ market.liquidity.getD 0)
    (hp1 : cfg.MIN_PROBABILITY ≤ p) (hp2 : p ≤ cfg.MAX_PROBABILITY) :
    calculate_position_size cfg market p =
      if cfg.MAX_POSITION_SIZE *
          ((p - cfg.MIN_PROBABILITY) / (cfg.MAX_PROBABILITY - cfg.MIN_PROBABILITY)) *
          min 1 (market.liquidity.getD 0 / (cfg.MIN_LIQUIDITY * 2)) < 10 then 0
      else
        round2 (cfg.MAX_POSITION_SIZE *
          ((p - cfg.MIN_PROBABILITY) / (cfg.MAX_PROBABILITY - cfg.MIN_PROBABILITY)) *
          min 1 (market.liquidity.getD 0 / (cfg.MIN_LIQUIDITY * 2))) := by
  obtain ⟨hv1, hv2, hv3, hv4, hv5⟩ := hv
  unfold calculate_position_size
  dsimp only
  rw [if_neg (not_lt.mpr hliq)]
  set pm := (p - cfg.MIN_PROBABILITY) / (cfg.MAX_PROBABILITY - cfg.MIN_PROBABILITY) with hpm
  set lm := min 1 (market.liquidity.getD 0 / (cfg.MIN_LIQUIDITY * 2)) with hlm
  have hden : (0:ℚ) < cfg.MAX_PROBABILITY - cfg.MIN_PROBABILITY := by linarith
  have hpm0 : 0 ≤ pm := div_nonneg (by linarith) (by linarith)
  have hpm1 : pm ≤ 1 := by
    rw [hpm, div_le_one hden]; linarith
  have hliq0 : 0 ≤ market.liquidity.getD 0 := by linarith
  have hlm0 : 0 ≤ lm :=
    le_min (by norm_num) (div_nonneg hliq0 (by linarith))
  have hlm1 : lm ≤ 1 := min_le_left _ _
  have hbase : 0 ≤ cfg.MAX_POSITION_SIZE := by linarith
  have hps : cfg.MAX_POSITION_SIZE * pm * lm ≤ cfg.MAX_POSITION_SIZE := by
    have h1 : pm * lm ≤ 1 := mul_le_one₀ hpm1 hlm0 hlm1
    have h2 : cfg.MAX_POSITION_SIZE * (pm * lm) ≤ cfg.MAX_POSITION_SIZE * 1 :=
      mul_le_mul_of_nonneg_left h1 hbase
    calc cfg.MAX_POSITION_SIZE * pm * lm
        = cfg.MAX_POSITION_SIZE * (pm * lm) := by ring
      _ ≤ cfg.MAX_POSITION_SIZE * 1 := h2
      _ = cfg.MAX_POSITION_SIZE := by ring
  rw [min_eq_left hps]

/-- Claim C1 (witness for the amended theorem) at the default configuration,
liquidity 10000 and probability 0.95. -/
theorem position_size_code_procedure_witness :
    calculate_position_size defaultConfig { liquidity := some 10000 } (95/100) =
      if defaultConfig.MAX_POSITION_SIZE *
          ((95/100 - defaultConfig.MIN_PROBABILITY) /
            (defaultConfig.MAX_PROBABILITY - defaultConfig.MIN_PROBABILITY)) *
          min 1 ((({ liquidity := some 10000 } : Market).liquidity.getD 0) /
            (defaultConfig.MIN_LIQUIDITY * 2)) < 10 then 0
      else
        round2 (defaultConfig.MAX_POSITION_SIZE *
          ((95/100 - defaultConfig.MIN_PROBABILITY) /
            (defaultConfig.MAX_PROBABILITY - defaultConfig.MIN_PROBABILITY)) *
          min 1 ((({ liquidity := some 10000 } : Market).liquidity.getD 0) /
            (defaultConfig.MIN_LIQUIDITY * 2))) :=
  position_size_code_procedure defaultConfig { liquidity := some 10000 } (95/100)
    (by norm_num [RMConfig.Valid, defaultConfig])
    (by norm_num [defaultConfig])
    (by norm_num [defaultConfig])
    (by norm_num [defaultConfig])

/-! ## Claim C4 — hard liquidity floor -/

/-- Claim C4: for every market and probability, under a valid configuration, if
the market's liquidity is strictly below the configured minimum then
`calculate_position_size` returns exactly 0. -/
theorem position_size_zero_below_liquidity_floor (cfg : RMConfig)
    (market : Market) (p : ℚ) (_hv : cfg.Valid)
    (h : market.liquidity.getD 0 < cfg.MIN_LIQUIDITY) :
    calculate_position_size cfg market p = 0 :=
  calculate_position_size_eq_zero_of_liquidity_lt cfg market p h

/-- Claim C4 (witness): default configuration, a market whose liquidity entry
is 0, probability 0.95. -/
theorem position_size_zero_below_liquidity_floor_witness :
    calculate_position_size defaultConfig { liquidity := some 0 } (95/100) = 0 :=
  position_size_zero_below_liquidity_floor defaultConfig { liquidity := some 0 }
    (95/100) (by norm_num [RMConfig.Valid, defaultConfig])
    (by norm_num [defaultConfig])

/-! ## Claim C8 — sizing bounds -/

/-- Claim C8 (counterexample): the claim says `calculate_position_size` never
returns more than the configured maximum.  With a configured maximum of 10.006
(valid per the configuration layer's constraints), liquidity 20000 and
probability 0.99, the raw size equals the maximum 10.006 and the final
rounding lifts the result to 10.01 > 10.006. -/
theorem position_size_bounds_cex :
    offGridConfig.Valid ∧
    calculate_position_size offGridConfig { liquidity := some 20000 } (99/100) = 1001/100 ∧
    offGridConfig.MAX_POSITION_SIZE < 1001/100 := by
  refine ⟨by norm_num [RMConfig.Valid, offGridConfig, defaultConfig], ?_, by
    norm_num [offGridConfig, defaultConfig]⟩
  norm_num [calculate_position_size, round2, roundHalfEven, offGridConfig,
    defaultConfig, min_def]

/-- Claim C8 (amended): for every probability (including values outside the
configured band) and every market, under a valid configuration the result of
`calculate_position_size` is ≥ 0 and never exceeds the configured maximum by
more than the final half-cent rounding; when the configured maximum is a whole
number of cents (as the default 1000 is), the result never exceeds the
configured maximum at all. -/
theorem position_size_bounds (cfg : RMConfig) (market : Market) (p : ℚ)
    (hv : cfg.Valid) :
    0 ≤ calculate_position_size cfg market p ∧
    calculate_position_size cfg market p ≤ cfg.MAX_POSITION_SIZE + 1/200 ∧
    (∀ k : ℤ, cfg.MAX_POSITION_SIZE = (k : ℚ) / 100 →
      calculate_position_size cfg market p ≤ cfg.MAX_POSITION_SIZE) := by
  obtain ⟨hv1, hv2, hv3, hv4, hv5⟩ := hv
  unfold calculate_position_size
  dsimp only
  split_ifs with h1 h2
  · refine ⟨le_refl 0, by linarith, fun k _ => by linarith⟩
  · refine ⟨le_refl 0, by linarith, fun k _ => by linarith⟩
  · -- the returned value is round2 of a quantity ps with 10 ≤ ps ≤ MAX
    set ps := min
      (cfg.MAX_POSITION_SIZE *
        ((p - cfg.MIN_PROBABILITY) / (cfg.MAX_PROBABILITY - cfg.MIN_PROBABILITY)) *
        min 1 (market.liquidity.getD 0 / (cfg.MIN_LIQUIDITY * 2)))
      cfg.MAX_POSITION_SIZE with hps
    have h10 : 10 ≤ ps := le_of_not_lt h2
    have hle : ps ≤ cfg.MAX_POSITION_SIZE := min_le_right _ _
    have hlow : (10 : ℚ) ≤ round2 ps := by
      have := cent_le_round2 (k := 1000) (x := ps) (by push_cast; linarith)
      push_cast at this
      linarith
    refine ⟨by linarith, ?_, ?_⟩
    · have := round2_le_add ps
      linarith
    · intro k hk
      have : round2 ps ≤ (k : ℚ) / 100 := round2_le_cent (by rw [← hk]; exact hle)
      rw [hk]
      exact this

/-- Claim C8 (witness for the amended theorem): default configuration (whose
maximum 1000 is a whole number of cents), a market with liquidity 20000,
probability 2 (far outside the band). -/
theorem position_size_bounds_witness :
    0 ≤ calculate_position_size defaultConfig { liquidity := some 20000 } 2 ∧
    calculate_position_size defaultConfig { liquidity := some 20000 } 2 ≤
      defaultConfig.MAX_POSITION_SIZE :=
  ⟨(position_size_bounds defaultConfig { liquidity := some 20000 } 2
      (by norm_num [RMConfig.Valid, defaultConfig])).1,
    (position_size_bounds defaultConfig { liquidity := some 20000 } 2
      (by norm_num [RMConfig.Valid, defaultConfig])).2.2 100000
      (by norm_num [defaultConfig])⟩

/-! ## Claim C2 — risk gate collects every failing reason -/

/-- Claim C2: for every configuration, balance-fetch outcome, market and
proposed position size, `check_risk_limits` evaluates all four checks without
short-circuiting — its reasons list is exactly the concatenation of one reason
per failing check, in source order (liquidity, position size, balance with a
fetch error itself a rejection reason, spread) — and `approved` is true iff
that list is empty. -/
theorem risk_limits_collect_all_reasons (cfg : RMConfig) (bal : Except String ℚ)
    (market : Market) (ps : ℚ) :
    (check_risk_limits cfg bal market ps).reasons =
      (if market.liquidity.getD 0 < cfg.MIN_LIQUIDITY then ["Insufficient liquidity"] else []) ++
      (if ps > cfg.MAX_POSITION_SIZE then ["Position size too large"] else []) ++
      (match bal with
        | .ok b => if b < ps * (11/10) then ["Insufficient balance"] else []
        | .error _ => ["Error checking balance"]) ++
      (if market.spread.getD 1 > 1/20 then ["Spread too wide"] else []) ∧
    ((check_risk_limits cfg bal market ps).approved = true ↔
      (check_risk_limits cfg bal market ps).reasons = []) := by
  unfold check_risk_limits
  rcases bal with b | e <;> dsimp only <;> split_ifs <;> simp

/-! ## Claim C5 — low-liquidity candidates never reach order submission -/

/-- Claim C5: for every candidate whose liquidity is below the configured
minimum (under a valid configuration), `execute_trade` returns success = false
with the error "Position size is zero", and the execution collaborator's
`execute_market_order` is never invoked. -/
theorem execute_trade_low_liquidity (cfg : RMConfig) (env : ExecEnv)
    (market : Market) (idx : ℕ) (p : ℚ) (_hv : cfg.Valid)
    (h : market.liquidity.getD 0 < cfg.MIN_LIQUIDITY) :
    execute_trade cfg env market idx p =
      { success := false, order_id := none,
        error := some "Position size is zero", position_size := 0 } ∧
    calls_execute_market_order cfg env market idx p = false := by
  have h0 := calculate_position_size_eq_zero_of_liquidity_lt cfg market p h
  constructor
  · unfold execute_trade execute_trade_body
    dsimp only
    rw [h0]
    simp [initResult]
  · unfold calls_execute_market_order
    dsimp only
    rw [h0]
    simp

/-- Claim C5 (witness): default configuration, a candidate with liquidity 100 <
5000, a fully-working execution environment. -/
theorem execute_trade_low_liquidity_witness :
    execute_trade defaultConfig ⟨.ok 10000, .ok (1/2), .ok "oid"⟩
        { liquidity := some 100, spread := some (1/50),
          clob_token_ids := some (some ["a", "b"]) } 0 (95/100) =
      { success := false, order_id := none,
        error := some "Position size is zero", position_size := 0 } ∧
    calls_execute_market_order defaultConfig ⟨.ok 10000, .ok (1/2), .ok "oid"⟩
        { liquidity := some 100, spread := some (1/50),
          clob_token_ids := some (some ["a", "b"]) } 0 (95/100) = false :=
  execute_trade_low_liquidity defaultConfig ⟨.ok 10000, .ok (1/2), .ok "oid"⟩
    { liquidity := some 100, spread := some (1/50),
      clob_token_ids := some (some ["a", "b"]) } 0 (95/100)
    (by norm_num [RMConfig.Valid, defaultConfig])
    (by norm_num [defaultConfig])

/-! ## Claim C6 — execute_trade converts exceptions to results -/

/-- Claim C6: `execute_trade` always returns a result record.  Whenever a step
of its body raises (modelled by `execute_trade_body` returning `.error e`), the
returned record is the initial one with success = false and error = str(e);
and every returned record with success = false carries an error string. -/
theorem execute_trade_reports_failures (cfg : RMConfig) (env : ExecEnv)
    (market : Market) (idx : ℕ) (p : ℚ) :
    (∀ e, execute_trade_body cfg env market idx p = .error e →
      execute_trade cfg env market idx p =
        { success := false, order_id := none, error := some e, position_size := 0 }) ∧
    ((execute_trade cfg env market idx p).success = false →
      (execute_trade cfg env market idx p).error ≠ none) := by
  constructor
  · intro e he
    unfold execute_trade
    rw [he]
    simp [initResult]
  · unfold execute_trade execute_trade_body
    dsimp only
    split_ifs with hps hap
    · simp [initResult]
    · simp [initResult]
    · rcases htok : market.clob_token_ids with _ | tok
      · simp [htok, initResult]
      · rcases tok with _ | ids
        · simp [htok, initResult]
        · simp only [htok]
          split_ifs with hids
          · simp [initResult]
          · rcases hprc : env.orderbookPrice with e' | v
            · simp [hprc, initResult]
            · rcases hexo : env.executeOrder with e'' | oid
              · simp [hprc, hexo, initResult]
              · simp [hprc, hexo]

/-- Claim C6 (witness): a raising price fetch (`get_orderbook_price` throws
"boom") on an otherwise healthy candidate is converted into
success = false, error = "boom". -/
theorem execute_trade_reports_failures_witness :
    execute_trade defaultConfig ⟨.ok 10000, .error "boom", .ok "oid"⟩
        { liquidity := some 10000, spread := some (1/50),
          clob_token_ids := some (some ["a", "b"]) } 0 (95/100) =
      { success := false, order_id := none, error := some "boom", position_size := 0 } :=
  (execute_trade_reports_failures defaultConfig ⟨.ok 10000, .error "boom", .ok "oid"⟩
      { liquidity := some 10000, spread := some (1/50),
        clob_token_ids := some (some ["a", "b"]) } 0 (95/100)).1 "boom"
    (by norm_num [execute_trade_body, calculate_position_size, check_risk_limits,
      round2, roundHalfEven, defaultConfig, min_def])

/-! ## Claim C3 — each single failing criterion yields false with a reason -/

/-- Claim C3: for each single failing condition — inactive, closed, archived,
unfunded, missing/short price vector, winning probability outside
`[min_prob, max_prob]`, missing end date, end date in the past, end date beyond
the window, and (known, per the spec's "when known at this stage") liquidity
below the configured minimum — with all conditions checked before it
satisfied, `check_market_criteria` returns `false` paired with a non-empty
reason string. -/
theorem criteria_single_failure_reasons
    (min_liquidity now min_prob max_prob window : ℚ) :
    (∀ m : GammaMarket, m.active = false →
      check_market_criteria min_liquidity now m min_prob max_prob window =
        (false, "Market is not active") ∧ "Market is not active" ≠ "") ∧
    (∀ m : GammaMarket, m.active = true → m.closed = true →
      check_market_criteria min_liquidity now m min_prob max_prob window =
        (false, "Market is closed") ∧ "Market is closed" ≠ "") ∧
    (∀ m : GammaMarket, m.active = true → m.closed = false → m.archived = true →
      check_market_criteria min_liquidity now m min_prob max_prob window =
        (false, "Market is archived") ∧ "Market is archived" ≠ "") ∧
    (∀ m : GammaMarket, m.active = true → m.closed = false → m.archived = false →
      m.funded = false →
      check_market_criteria min_liquidity now m min_prob max_prob window =
        (false, "Market is not funded") ∧ "Market is not funded" ≠ "") ∧
    (∀ m : GammaMarket, m.active = true → m.closed = false → m.archived = false →
      m.funded = true → m.outcomePrices.length < 2 →
      check_market_criteria min_liquidity now m min_prob max_prob window =
        (false, "Invalid outcome prices") ∧ "Invalid outcome prices" ≠ "") ∧
    (∀ m : GammaMarket, m.active = true → m.closed = false → m.archived = false →
      m.funded = true → 2 ≤ m.outcomePrices.length →
      ¬(min_prob ≤ pyMax m.outcomePrices ∧ pyMax m.outcomePrices ≤ max_prob) →
      check_market_criteria min_liquidity now m min_prob max_prob window =
        (false, "Probability outside range") ∧ "Probability outside range" ≠ "") ∧
    (∀ m : GammaMarket, m.active = true → m.closed = false → m.archived = false →
      m.funded = true → 2 ≤ m.outcomePrices.length →
      min_prob ≤ pyMax m.outcomePrices → pyMax m.outcomePrices ≤ max_prob →
      m.endDate = none →
      check_market_criteria min_liquidity now m min_prob max_prob window =
        (false, "No end date available") ∧ "No end date available" ≠ "") ∧
    (∀ (m : GammaMarket) (e : ℚ), m.active = true → m.closed = false →
      m.archived = false → m.funded = true → 2 ≤ m.outcomePrices.length →
      min_prob ≤ pyMax m.outcomePrices → pyMax m.outcomePrices ≤ max_prob →
      m.endDate = some (some e) → e - now < 0 →
      check_market_criteria min_liquidity now m min_prob max_prob window =
        (false, "Market has already ended") ∧ "Market has already ended" ≠ "") ∧
    (∀ (m : GammaMarket) (e : ℚ), m.active = true → m.closed = false →
      m.archived = false → m.funded = true → 2 ≤ m.outcomePrices.length →
      min_prob ≤ pyMax m.outcomePrices → pyMax m.outcomePrices ≤ max_prob →
      m.endDate = some (some e) → 0 ≤ e - now → window < e - now →
      check_market_criteria min_liquidity now m min_prob max_prob window =
        (false, "Resolution too far") ∧ "Resolution too far" ≠ "") ∧
    (∀ (m : GammaMarket) (e : ℚ), m.active = true → m.closed = false →
      m.archived = false → m.funded = true → 2 ≤ m.outcomePrices.length →
      min_prob ≤ pyMax m.outcomePrices → pyMax m.outcomePrices ≤ max_prob →
      m.endDate = some (some e) → 0 ≤ e - now → e - now ≤ window →
      pyOrFloat m.liquidityClob m.liquidity ≠ 0 →
      pyOrFloat m.liquidityClob m.liquidity < min_liquidity →
      check_market_criteria min_liquidity now m min_prob max_prob window =
        (false, "Insufficient liquidity") ∧ "Insufficient liquidity" ≠ "") := by
  refine ⟨?_, ?_, ?_, ?_, ?_, ?_, ?_, ?_, ?_, ?_⟩
  · intro m h1
    exact ⟨by simp [check_market_criteria, h1], by simp⟩
  · intro m h1 h2
    exact ⟨by simp [check_market_criteria, h1, h2], by simp⟩
  · intro m h1 h2 h3
    exact ⟨by simp [check_market_criteria, h1, h2, h3], by simp⟩
  · intro m h1 h2 h3 h4
    exact ⟨by simp [check_market_criteria, h1, h2, h3, h4], by simp⟩
  · intro m h1 h2 h3 h4 h5
    exact ⟨by simp [check_market_criteria, h1, h2, h3, h4, h5], by simp⟩
  · intro m h1 h2 h3 h4 h5 h6
    have hlen : ¬(m.outcomePrices.length < 2) := by omega
    have hne : m.outcomePrices.isEmpty = false := by
      cases hl : m.outcomePrices <;> simp_all
    have hband : (decide (min_prob ≤ pyMax m.outcomePrices) &&
        decide (pyMax m.outcomePrices ≤ max_prob)) = false := by
      rw [← Bool.decide_and]; exact decide_eq_false h6
    exact ⟨by simp [check_market_criteria, h1, h2, h3, h4, hlen, hne, hband], by simp⟩
  · intro m h1 h2 h3 h4 h5 h6 h7 h8
    have hlen : ¬(m.outcomePrices.length < 2) := by omega
    have hne : m.outcomePrices.isEmpty = false := by
      cases hl : m.outcomePrices <;> simp_all
    exact ⟨by simp [check_market_criteria, h1, h2, h3, h4, hlen, hne, h6, h7, h8], by simp⟩
  · intro m e h1 h2 h3 h4 h5 h6 h7 h8 h9
    have hlen : ¬(m.outcomePrices.length < 2) := by omega
    have hne : m.outcomePrices.isEmpty = false := by
      cases hl : m.outcomePrices <;> simp_all
    exact ⟨by simp [check_market_criteria, h1, h2, h3, h4, hlen, hne, h6, h7, h8, h9],
      by simp⟩
  · intro m e h1 h2 h3 h4 h5 h6 h7 h8 h9 h10
    have hlen : ¬(m.outcomePrices.length < 2) := by omega
    have hne : m.outcomePrices.isEmpty = false := by
      cases hl : m.outcomePrices <;> simp_all
    have h9' : ¬(e - now < 0) := not_lt.mpr h9
    exact ⟨by simp [check_market_criteria, h1, h2, h3, h4, hlen, hne, h6, h7, h8,
      h9', h10], by simp⟩
  · intro m e h1 h2 h3 h4 h5 h6 h7 h8 h9 h10 h11 h12
    have hlen : ¬(m.outcomePrices.length < 2) := by omega
    have hne : m.outcomePrices.isEmpty = false := by
      cases hl : m.outcomePrices <;> simp_all
    have h9' : ¬(e - now < 0) := not_lt.mpr h9
    have h10' : ¬(window < e - now) := not_lt.mpr h10
    exact ⟨by simp [check_market_criteria, h1, h2, h3, h4, hlen, hne, h6, h7, h8,
      h9', h10', h11, h12], by simp⟩

/-- Claim C3 (witness): at thresholds (5000, now 0, band [0.92, 0.99], 48h),
ten variants of a fully-qualifying market, each failing exactly one criterion,
are rejected with the corresponding reason. -/
theorem criteria_single_failure_reasons_witness :
    check_market_criteria 5000 0 { goodScanMarket with active := false }
      (92/100) (99/100) 48 = (false, "Market is not active") ∧
    check_market_criteria 5000 0 { goodScanMarket with closed := true }
      (92/100) (99/100) 48 = (false, "Market is closed") ∧
    check_market_criteria 5000 0 { goodScanMarket with archived := true }
      (92/100) (99/100) 48 = (false, "Market is archived") ∧
    check_market_criteria 5000 0 { goodScanMarket with funded := false }
      (92/100) (99/100) 48 = (false, "Market is not funded") ∧
    check_market_criteria 5000 0 { goodScanMarket with outcomePrices := [1] }
      (92/100) (99/100) 48 = (false, "Invalid outcome prices") ∧
    check_market_criteria 5000 0
      { goodScanMarket with outcomePrices := [85/100, 15/100] }
      (92/100) (99/100) 48 = (false, "Probability outside range") ∧
    check_market_criteria 5000 0 { goodScanMarket with endDate := none }
      (92/100) (99/100) 48 = (false, "No end date available") ∧
    check_market_criteria 5000 0 { goodScanMarket with endDate := some (some (-1)) }
      (92/100) (99/100) 48 = (false, "Market has already ended") ∧
    check_market_criteria 5000 0 { goodScanMarket with endDate := some (some 100) }
      (92/100) (99/100) 48 = (false, "Resolution too far") ∧
    check_market_criteria 5000 0 { goodScanMarket with liquidityClob := some 1000 }
      (92/100) (99/100) 48 = (false, "Insufficient liquidity") := by
  have T := criteria_single_failure_reasons 5000 0 (92/100) (99/100) 48
  refine ⟨(T.1 _ rfl).1, (T.2.1 _ rfl rfl).1, (T.2.2.1 _ rfl rfl rfl).1,
    (T.2.2.2.1 _ rfl rfl rfl rfl).1,
    (T.2.2.2.2.1 _ rfl rfl rfl rfl (by norm_num [goodScanMarket])).1,
    (T.2.2.2.2.2.1 _ rfl rfl rfl rfl (by norm_num [goodScanMarket])
      (by norm_num [goodScanMarket, pyMax, max_def])).1,
    (T.2.2.2.2.2.2.1 _ rfl rfl rfl rfl (by norm_num [goodScanMarket])
      (by norm_num [goodScanMarket, pyMax, max_def])
      (by norm_num [goodScanMarket, pyMax, max_def]) rfl).1,
    (T.2.2.2.2.2.2.2.1 _ (-1) rfl rfl rfl rfl (by norm_num [goodScanMarket])
      (by norm_num [goodScanMarket, pyMax, max_def])
      (by norm_num [goodScanMarket, pyMax, max_def]) rfl (by norm_num)).1,
    (T.2.2.2.2.2.2.2.2.1 _ 100 rfl rfl rfl rfl (by norm_num [goodScanMarket])
      (by norm_num [goodScanMarket, pyMax, max_def])
      (by norm_num [goodScanMarket, pyMax, max_def]) rfl (by norm_num)
      (by norm_num)).1,
    (T.2.2.2.2.2.2.2.2.2 _ 24 rfl rfl rfl rfl (by norm_num [goodScanMarket])
      (by norm_num [goodScanMarket, pyMax, max_def])
      (by norm_num [goodScanMarket, pyMax, max_def]) rfl (by norm_num)
      (by norm_num) (by norm_num [goodScanMarket, pyOrFloat])
      (by norm_num [goodScanMarket, pyOrFloat])).1⟩

/-! ## Claim C7 — timing boundary in `check_market_criteria` -/

/-- Claim C7 (counterexample): the claim says a market whose end date equals
the current time (hours-until-resolution exactly 0) is rejected as already
past due.  With `now = 0` and an end date parsing to 0, the code's check
`time_diff < 0` does not fire and the market qualifies with
"All criteria met". -/
theorem criteria_timing_boundary_cex :
    check_market_criteria 5000 0 { goodScanMarket with endDate := some (some 0) }
      (92/100) (99/100) 48 = (true, "All criteria met") := by
  norm_num [check_market_criteria, goodScanMarket, pyMax, max_def, pyOrFloat]

/-- Claim C7 (amended): in `check_market_criteria`, a market with a present and
parseable end date (and every non-timing check passing, the liquidity check
vacuously or by margin) qualifies on the timing check if and only if its
hours-until-resolution is **at least** 0 and at most `time_window_hours`: only
strictly past-due markets are rejected, and an end date equal to the current
time is accepted. -/
theorem criteria_timing_qualifies_iff
    (min_liquidity now min_prob max_prob window : ℚ) (m : GammaMarket) (e : ℚ)
    (h1 : m.active = true) (h2 : m.closed = false) (h3 : m.archived = false)
    (h4 : m.funded = true) (h5 : 2 ≤ m.outcomePrices.length)
    (h6 : min_prob ≤ pyMax m.outcomePrices) (h7 : pyMax m.outcomePrices ≤ max_prob)
    (h8 : m.endDate = some (some e))
    (h9 : pyOrFloat m.liquidityClob m.liquidity = 0 ∨
      min_liquidity ≤ pyOrFloat m.liquidityClob m.liquidity) :
    ((check_market_criteria min_liquidity now m min_prob max_prob window).1 = true ↔
      (0 ≤ e - now ∧ e - now ≤ window)) := by
  have hlen : ¬(m.outcomePrices.length < 2) := by omega
  have hne : m.outcomePrices.isEmpty = false := by
    cases hl : m.outcomePrices <;> simp_all
  have hliqcond : ¬(pyOrFloat m.liquidityClob m.liquidity ≠ 0 ∧
      pyOrFloat m.liquidityClob m.liquidity < min_liquidity) := by
    rcases h9 with h9 | h9
    · exact fun hc => hc.1 h9
    · exact fun hc => absurd h9 (not_le.mpr hc.2)
  simp only [check_market_criteria, h1, h2, h3, h4, hne, hlen, h6, h7, h8]
  norm_num
  split_ifs with ht1 ht2
  · rw [false_iff]
    rintro ⟨ha, hb⟩
    linarith
  · rw [false_iff]
    rintro ⟨ha, hb⟩
    linarith
  · exact ⟨fun _ => ⟨by linarith, by linarith⟩, fun _ => rfl⟩

/-- Claim C7 (witness for the amended theorem): the fully-qualifying market
resolving 24 hours from now qualifies, matching `0 ≤ 24 - 0 ≤ 48`. -/
theorem criteria_timing_qualifies_iff_witness :
    ((check_market_criteria 5000 0 goodScanMarket (92/100) (99/100) 48).1 = true ↔
      (0 ≤ (24:ℚ) - 0 ∧ (24:ℚ) - 0 ≤ 48)) :=
  criteria_timing_qualifies_iff 5000 0 (92/100) (99/100) 48 goodScanMarket 24
    rfl rfl rfl rfl (by norm_num [goodScanMarket])
    (by norm_num [goodScanMarket, pyMax, max_def])
    (by norm_num [goodScanMarket, pyMax, max_def]) rfl
    (Or.inr (by norm_num [goodScanMarket, pyOrFloat]))

/-! ## Claim C10 — details record for a missing/unparseable end date -/

/-- Claim C10: when the provider record exists and has non-empty outcome and
price vectors but a missing or unparseable end date, `get_market_details`
neither returns None nor raises: it returns a record with
`hours_until_resolution = 0.0` and `time_window_qualifies`,
`meets_time_requirement` and `is_qualified` all false, regardless of liquidity
and winning probability. -/
theorem details_missing_end_date (min_liquidity now : ℚ)
    (ob : Except String OrderBook) (d : GammaDetail)
    (h1 : d.outcomePrices ≠ []) (h2 : d.outcomes ≠ [])
    (h3 : d.endDate = none ∨ d.endDate = some none) :
    (get_market_details min_liquidity now (some d) ob).map
        (fun r => (r.hours_until_resolution, r.time_window_qualifies,
          r.meets_time_requirement, r.is_qualified)) =
      some (0, false, false, false) := by
  have h1' : d.outcomePrices.isEmpty = false := by
    cases hl : d.outcomePrices <;> simp_all
  have h2' : d.outcomes.isEmpty = false := by
    cases hl : d.outcomes <;> simp_all
  rcases h3 with h3 | h3 <;> simp [get_market_details, h1', h2', h3]

/-- Claim C10 (witness): a found market with prices [0.95, 0.05], liquidity
10000 and no end date yields a record with zeroed timing and
`is_qualified = false`. -/
theorem details_missing_end_date_witness :
    (get_market_details 5000 0
        (some { question := "q", outcomes := ["Yes", "No"],
                outcomePrices := [95/100, 5/100], active := true, funded := true,
                liquidityClob := some 10000 })
        (.ok { bids := [], asks := [] })).map
        (fun r => (r.hours_until_resolution, r.time_window_qualifies,
          r.meets_time_requirement, r.is_qualified)) =
      some (0, false, false, false) :=
  details_missing_end_date 5000 0 (.ok { bids := [], asks := [] })
    { question := "q", outcomes := ["Yes", "No"],
      outcomePrices := [95/100, 5/100], active := true, funded := true,
      liquidityClob := some 10000 }
    (by simp) (by simp) (Or.inl rfl)

/-! ## Claim C9 — MarketCandidate construction-time invariants -/

/-- Claim C9 (counterexample): the claim says every successfully constructed
`MarketCandidate` has outcome and price lists of equal length ≥ 2, and that
construction fails for any violating input.  Construction with a single
outcome label against two prices succeeds (the model has no length
validators): the constructed candidate has `outcomes.length = 1` and
`outcome_prices.length = 2`. -/
theorem candidate_invariants_cex :
    ((mkMarketCandidate 1 "q" ["Yes"] [1/2, 1/2] 0 (1/2) true false true "" 0 false
        0 0 false false false false).toOption.map
      (fun c => (c.outcomes.length, c.outcome_prices.length))) = some (1, 2) ∧
    (1 : ℕ) ≠ 2 := by
  refine ⟨?_, by norm_num⟩
  norm_num [mkMarketCandidate, Except.toOption]

/-- Claim C9 (amended): construction of a `MarketCandidate` succeeds iff
`0 ≤ winning_probability ≤ 1` and `liquidity ≥ 0` (the two declared
validators), and every successfully constructed candidate satisfies those two
invariants; the lengths-match and length ≥ 2 invariants of the data model are
not enforced at construction. -/
theorem candidate_validation (market_id : ℤ) (question : String)
    (outcomes : List String) (outcome_prices : List ℚ)
    (winning_outcome_index : ℤ) (winning_probability : ℚ)
    (active closed funded : Bool) (end_date : String)
    (hours_until_resolution : ℚ) (time_window_qualifies : Bool)
    (liquidity spread : ℚ)
    (m1 m2 m3 m4 : Bool) :
    ((mkMarketCandidate market_id question outcomes outcome_prices
        winning_outcome_index winning_probability active closed funded end_date
        hours_until_resolution time_window_qualifies liquidity spread
        m1 m2 m3 m4).isOk = true ↔
      (0 ≤ winning_probability ∧ winning_probability ≤ 1 ∧ 0 ≤ liquidity)) ∧
    (∀ cand, mkMarketCandidate market_id question outcomes outcome_prices
        winning_outcome_index winning_probability active closed funded end_date
        hours_until_resolution time_window_qualifies liquidity spread
        m1 m2 m3 m4 = .ok cand →
      0 ≤ cand.winning_probability ∧ cand.winning_probability ≤ 1 ∧
        0 ≤ cand.liquidity) := by
  by_cases hv : 0 ≤ winning_probability ∧ winning_probability ≤ 1
  · by_cases hl : liquidity < 0
    · have heq : mkMarketCandidate market_id question outcomes outcome_prices
          winning_outcome_index winning_probability active closed funded end_date
          hours_until_resolution time_window_qualifies liquidity spread
          m1 m2 m3 m4 = .error "Liquidity must be non-negative" := by
        unfold mkMarketCandidate
        rw [if_neg (not_not_intro hv), if_pos hl]
      rw [heq]
      constructor
      · constructor
        · intro h
          simp [Except.isOk, Except.toBool] at h
        · rintro ⟨_, _, hl'⟩
          exact absurd hl (not_lt.mpr hl')
      · intro cand h
        exact Except.noConfusion h
    · have heq : mkMarketCandidate market_id question outcomes outcome_prices
          winning_outcome_index winning_probability active closed funded end_date
          hours_until_resolution time_window_qualifies liquidity spread
          m1 m2 m3 m4 = .ok
            { market_id := market_id, question := question, outcomes := outcomes,
              outcome_prices := outcome_prices,
              winning_outcome_index := winning_outcome_index,
              winning_probability := winning_probability, active := active,
              closed := closed, funded := funded, end_date := end_date,
              hours_until_resolution := hours_until_resolution,
              time_window_qualifies := time_window_qualifies,
              liquidity := liquidity, spread := spread,
              meets_liquidity_requirement := m1,
              meets_probability_requirement := m2,
              meets_time_requirement := m3, is_qualified := m4 } := by
        unfold mkMarketCandidate
        rw [if_neg (not_not_intro hv), if_neg hl]
      rw [heq]
      constructor
      · exact ⟨fun _ => ⟨hv.1, hv.2, not_lt.mp hl⟩, fun _ => rfl⟩
      · intro cand h
        injection h with h'
        subst h'
        exact ⟨hv.1, hv.2, not_lt.mp hl⟩
  · have heq : mkMarketCandidate market_id question outcomes outcome_prices
        winning_outcome_index winning_probability active closed funded end_date
        hours_until_resolution time_window_qualifies liquidity spread
        m1 m2 m3 m4 = .error "Probability must be between 0 and 1" := by
      unfold mkMarketCandidate
      rw [if_pos hv]
    rw [heq]
    constructor
    · constructor
      · intro h
        simp [Except.isOk, Except.toBool] at h
      · rintro ⟨hp1, hp2, _⟩
        exact absurd (⟨hp1, hp2⟩ : _ ∧ _) hv
    · intro cand h
      exact Except.noConfusion h

/-- Claim C9 (witness for the amended theorem): a well-formed candidate
(probability 0.95, liquidity 10000) constructs successfully. -/
theorem candidate_validation_witness :
    (mkMarketCandidate 1 "q" ["Yes", "No"] [95/100, 5/100] 0 (95/100) true false
        true "" 24 true 10000 (1/50) true true true true).isOk = true :=
  (candidate_validation 1 "q" ["Yes", "No"] [95/100, 5/100] 0 (95/100) true false
      true "" 24 true 10000 (1/50) true true true true).1.mpr (by norm_num)

end ArbAgent
